import Mathlib

/-!
# Verification of `couchapp/generator.py`

A shallow embedding of the scaffold generator of the couchapp repository
(`src/couchapp/generator.py`) together with proofs settling the frozen
claims about it.

Modelling conventions:
* A filesystem path is a list of components (`FsPath := List String`);
  `os.path.join` with slash-free relative components is list append, and
  empty components are dropped (as `posixpath.join` collapses them).
  Absolute and cwd-relative paths are both rooted at the single root of
  the modelled filesystem tree.
* The filesystem is a rooted tree `FSNode`; a directory holds an ordered
  association list of (name, node) children (`os.listdir` order is the
  list order).
* Python exceptions are the inductive `PyErr`; an operation that mutates
  the filesystem and may raise returns `FSNode × Option PyErr` (the state
  reached when the exception propagates is kept, as on a real filesystem:
  no rollback).
* Functions from `couchapp.util` and `couchapp.localdoc` are not part of
  `src/`; they are modelled from the spec (doc comments say so).
-/

/-- A filesystem path, as a list of slash-free components. -/
abbrev FsPath : Type := List String

/-- Split a list of characters on `/` (structural version of
`String.splitOn "/"`). -/
def splitSlashAux : List Char → List Char → List String
  | [], cur => [String.mk cur.reverse]
  | c :: rest, cur =>
    if c = '/' then String.mk cur.reverse :: splitSlashAux rest []
    else splitSlashAux rest (c :: cur)

/-- Split a Python path string on `/` into components, dropping empty
components (as `os.path.join`/`posixpath` collapse them). -/
def splitSlash (s : String) : FsPath :=
  (splitSlashAux s.toList []).filter (fun c => c ≠ "")

/-- Render a component path as a slash-separated string (used only to
build human-readable messages, as `os.path.join` does in log strings). -/
def pathStr (p : FsPath) : String :=
  String.intercalate "/" p

/-- `posixpath.normpath` on component lists: drop `.` and empty
components, resolve `..` against the preceding component.  Paths in the
model are rooted, so a leading `..` collapses like `/..` does. -/
def normpathC (p : FsPath) : FsPath :=
  p.foldl
    (fun acc c =>
      if c = "." ∨ c = "" then acc
      else if c = ".." then acc.dropLast
      else acc ++ [c])
    []

/-- `os.path.normpath` on a path string, re-rendered as a string
(`init_template` normalises the template name this way). -/
def normpathStr (s : String) : String :=
  pathStr (normpathC (splitSlash s))

/-- A node of the modelled filesystem: a regular file carrying its text
content and a metadata stamp (timestamps/permissions, preserved by
`shutil.copy2`), or a directory with ordered named children. -/
inductive FSNode : Type where
  | file (content : String) (meta : Nat)
  | dir (children : List (String × FSNode))

/-- First-match association-list lookup among directory children. -/
def assocFind (cs : List (String × FSNode)) (k : String) : Option FSNode :=
  match cs with
  | [] => none
  | (a, b) :: t => if a = k then some b else assocFind t k

/-- Replace the binding of `k` (first occurrence) or append a new one at
the end: a file write into a directory. -/
def assocSet (cs : List (String × FSNode)) (k : String) (v : FSNode) :
    List (String × FSNode) :=
  match cs with
  | [] => [(k, v)]
  | (a, b) :: t => if a = k then (k, v) :: t else (a, b) :: assocSet t k v

/-- Look up the node at a path. -/
def lookupFS (n : FSNode) (p : FsPath) : Option FSNode :=
  match p, n with
  | [], _ => some n
  | _ :: _, .file _ _ => none
  | k :: rest, .dir cs =>
    match assocFind cs k with
    | none => none
    | some c => lookupFS c rest

/-- `os.path.isdir`. -/
def isdirFS (n : FSNode) (p : FsPath) : Bool :=
  match lookupFS n p with
  | some (.dir _) => true
  | _ => false

/-- `os.path.exists`. -/
def existsFS (n : FSNode) (p : FsPath) : Bool :=
  (lookupFS n p).isSome

/-- `os.listdir`: the names of the direct children of a directory, in
stored (insertion) order. -/
def listNames (n : FSNode) (p : FsPath) : Option (List String) :=
  match lookupFS n p with
  | some (.dir cs) => some (cs.map Prod.fst)
  | _ => none

/-- Read a file: its content and metadata stamp. -/
def readFile (n : FSNode) (p : FsPath) : Option (String × Nat) :=
  match lookupFS n p with
  | some (.file c m) => some (c, m)
  | _ => none

/-- Write the node `v` at path `p`.  The parent of `p` must already
exist as a directory (otherwise the OS call would raise); an existing
node at `p` is replaced. -/
def updateFS (n : FSNode) (p : FsPath) (v : FSNode) : Option FSNode :=
  match p, n with
  | [], _ => some v
  | _ :: _, .file _ _ => none
  | [k], .dir cs => some (.dir (assocSet cs k v))
  | k :: rest, .dir cs =>
    match assocFind cs k with
    | none => none
    | some c =>
      match updateFS c rest v with
      | none => none
      | some c' => some (.dir (assocSet cs k c'))

/-- A chain of fresh empty directories along `p`. -/
def freshChain (p : FsPath) : FSNode :=
  match p with
  | [] => .dir []
  | k :: rest => .dir [(k, freshChain rest)]

/-- `os.makedirs`-style recursive creation: create every missing
directory along `p`; fails (`none`) when a regular file blocks the way.
Unlike raw `os.makedirs` it does not object when `p` already exists —
call sites that need the raised-and-swallowed behaviour get the same
final state, because both leave the tree unchanged. -/
def ensureDirs (n : FSNode) (p : FsPath) : Option FSNode :=
  match p, n with
  | [], .dir cs => some (.dir cs)
  | [], .file _ _ => none
  | _ :: _, .file _ _ => none
  | k :: rest, .dir cs =>
    match assocFind cs k with
    | none => some (.dir (assocSet cs k (freshChain rest)))
    | some c =>
      match ensureDirs c rest with
      | none => none
      | some c' => some (.dir (assocSet cs k c'))

/-- Python exceptions raised by the generator and the library calls it
makes. -/
inductive PyErr : Type where
  /-- `couchapp.errors.AppError` with its message. -/
  | appError (msg : String)
  /-- `OSError` with a message (e.g. `copy_helper`'s not-a-directory). -/
  | osError (msg : String)
  /-- `OSError(EEXIST)`: raised by `shutil.copytree` (via `os.makedirs`)
  when the destination already exists. -/
  | fileExists
  /-- `IOError`: a missing file or parent during an `open`/copy. -/
  | ioError
  /-- `TypeError`: e.g. `os.path.isdir(None)` → `os.stat(None)`. -/
  | typeError
  /-- `NameError`: an unbound global name is evaluated. -/
  | nameError
  /-- `AttributeError`: e.g. `None.split(...)`. -/
  | attributeError
  deriving DecidableEq

/-- The platform-dependent inputs of `find_template_dir`, reframed as an
explicit record.  The source reads them from `couchapp.util`, `os` and
`sys`: the result of `user_path()`, the directory containing the module
(`os.path.dirname(__file__)`), the platform predicates, and the roots
the Windows/macOS branches contribute. -/
structure Env : Type where
  /-- `user_path()` from `couchapp.util` (user configuration roots). -/
  userPaths : List FsPath
  /-- `os.path.dirname(__file__)`. -/
  modpath : FsPath
  /-- `os.name == 'posix'`. -/
  posix : Bool
  /-- `couchapp.util.is_py2exe()`. -/
  py2exe : Bool
  /-- `couchapp.util.is_windows()`. -/
  windows : Bool
  /-- `sys.platform.startswith('darwin')`. -/
  darwin : Bool
  /-- `os.path.dirname(sys.executable)` (used when `is_py2exe()`). -/
  exeDir : FsPath
  /-- `sys.prefix` (used on a Windows interpreter install). -/
  sysPref : FsPath
  /-- `os.path.expanduser('~/Library/Application Support/Couchapp')`. -/
  darwinSupport : FsPath

/-- `TEMPLATE_TYPES` (lines 32–36). -/
def TEMPLATE_TYPES : List String := ["app", "functions", "vendor"]

/-- `DEFAULT_APP_TREE` (lines 23–30). -/
def DEFAULT_APP_TREE : List String :=
  ["_attachments", "filters", "lists", "shows", "updates", "views"]

/-- The ordered candidate roots built by `find_template_dir`
(lines 258–281): user paths, then the module directory and its parent,
then the posix / py2exe / windows-interpreter roots (mutually exclusive
`if`/`elif` chain), and the macOS root appended last. -/
def search_paths (env : Env) : List FsPath :=
  env.userPaths ++ [env.modpath, env.modpath ++ [".."]] ++
  (if env.posix then
    [["usr", "share", "couchapp"],
     ["usr", "local", "share", "couchapp"],
     ["opt", "couchapp"]]
   else if env.py2exe then [env.exeDir]
   else if env.windows then [env.sysPref ++ ["Lib", "site-packages", "couchapp"]]
   else []) ++
  (if env.darwin then [env.darwinSupport] else [])

/-- The probe path examined for one candidate root (lines 284–286):
`os.path.normpath(root)` joined with `templates`, `tmpl_name` and
`tmpl_type`; empty components collapse under `os.path.join`. -/
def probePath (root : FsPath) (tmpl_name tmpl_type : String) : FsPath :=
  normpathC root ++ ["templates"] ++ splitSlash tmpl_name ++ splitSlash tmpl_type

/-- `find_template_dir(tmpl_name='default', tmpl_type='', raise_error=False)`
(lines 211–298), with the filesystem's `os.path.isdir` supplied as a
function.  A non-empty `tmpl_type` outside `TEMPLATE_TYPES` raises
`AppError` immediately; the literal name `default` is treated as the
empty name; the first probed path that is a directory wins; when
nothing matches the result is `AppError` (if `raise_error`) or `None`. -/
def find_template_dir (env : Env) (isdirF : FsPath → Bool)
    (tmpl_name tmpl_type : String) (raise_error : Bool) :
    Except PyErr (Option FsPath) :=
  if tmpl_type ≠ "" ∧ tmpl_type ∉ TEMPLATE_TYPES then
    .error (.appError ("invalid template type \"" ++ tmpl_type ++ "\""))
  else
    let name := if tmpl_name = "default" then "" else tmpl_name
    match ((search_paths env).map (fun r => probePath r name tmpl_type)).find? isdirF with
    | some p => .ok (some p)
    | none =>
      if raise_error then
        .error (.appError ("template \"" ++ name ++ "/" ++ tmpl_type ++ "\" not found."))
      else
        .ok none

/-- Modelled from the spec: `couchapp.util.setup_dir` (the spec's
`ensure_dir(path, require_empty)`) is not under `src/`.  Per spec §2,
§4.3 and §6: the directory is created (recursively) when absent; with
`require_empty = true` an existing non-empty directory is a
directory-state error (OCCUPIED-DIRECTORY); with `require_empty = false`
an existing directory is used as-is; a regular file at the path, or a
file blocking creation, is a directory-state error. -/
def setup_dir (fs : FSNode) (p : FsPath) (require_empty : Bool) :
    FSNode × Option PyErr :=
  match lookupFS fs p with
  | some (.dir cs) =>
    if require_empty ∧ cs.isEmpty = false then
      (fs, some (.osError "occupied directory"))
    else (fs, none)
  | some (.file _ _) => (fs, some (.osError "not a directory"))
  | none =>
    match ensureDirs fs p with
    | some fs' => (fs', none)
    | none => (fs, some (.osError "cannot create directory"))

/-- Modelled from the spec: `couchapp.util.setup_dirs` (the spec's
`ensure_dirs(paths)`) is not under `src/`; it applies `setup_dir` to
each path in order, stopping at the first error. -/
def setup_dirs (fs : FSNode) (ps : List FsPath) (require_empty : Bool) :
    FSNode × Option PyErr :=
  match ps with
  | [] => (fs, none)
  | p :: rest =>
    match setup_dir fs p require_empty with
    | (fs', none) => setup_dirs fs' rest require_empty
    | (fs', some e) => (fs', some e)

/-- `shutil.copy2(src, dst)` as imported on line 12: copy file content
and metadata, overwriting `dst`; missing source or missing destination
parent raises. -/
def copy2 (fs : FSNode) (src dst : FsPath) : Except PyErr FSNode :=
  match lookupFS fs src with
  | some (.file c m) =>
    match updateFS fs dst (.file c m) with
    | some fs' => .ok fs'
    | none => .error .ioError
  | _ => .error .ioError

/-- `shutil.copytree(src, dst)` as imported on line 12: recursively copy
the whole subtree preserving metadata; the `os.makedirs(dst)` inside it
raises `OSError(EEXIST)` when `dst` already exists. -/
def copytree (fs : FSNode) (src dst : FsPath) : Except PyErr FSNode :=
  if existsFS fs dst then .error .fileExists
  else
    match lookupFS fs src with
    | some n =>
      match updateFS fs dst n with
      | some fs' => .ok fs'
      | none => .error .ioError
    | none => .error .ioError

/-- The per-entry loop of `copy_helper` (lines 201–208): for each name
from the snapshot of `os.listdir(src)`, a directory entry is `copytree`d
(whole subtree, destination must not already exist) and a file entry is
`copy2`d (overwrite).  A raised exception aborts the loop. -/
def copyEntries (fs : FSNode) (src dest : FsPath) :
    List String → FSNode × Option PyErr
  | [] => (fs, none)
  | p :: rest =>
    let s := src ++ [p]
    let d := dest ++ [p]
    if isdirFS fs s then
      match copytree fs s d with
      | .ok fs' => copyEntries fs' src dest rest
      | .error e => (fs, some e)
    else
      match copy2 fs s d with
      | .ok fs' => copyEntries fs' src dest rest
      | .error e => (fs, some e)

/-- `copy_helper(src, dest)` (lines 175–208).  The `src` argument is an
`Option` because `init_template` can pass the `None` result of a failed
template lookup: `os.path.isdir(None)` calls `os.stat(None)`, which
raises `TypeError` before anything else happens. -/
def copy_helper (fs : FSNode) (src : Option FsPath) (dest : FsPath) :
    FSNode × Option PyErr :=
  match src with
  | none => (fs, some .typeError)
  | some s =>
    match lookupFS fs s with
    | some (.dir cs) =>
      match setup_dir fs dest false with
      | (fs1, some e) => (fs1, some e)
      | (fs1, none) => copyEntries fs1 s dest (cs.map Prod.fst)
    | _ => (fs, some (.osError ("source \"" ++ pathStr s ++ "\" is not a directory")))

/-- `save_id(app_path, name)` (lines 317–326): write `name` into
`app_path/_id`, overwriting any existing file; `open` needs the parent
directory to exist. -/
def save_id (fs : FSNode) (app_path : FsPath) (name : String) :
    FSNode × Option PyErr :=
  match updateFS fs (app_path ++ ["_id"]) (.file name 0) with
  | some fs' => (fs', none)
  | none => (fs, some .ioError)

/-- Modelled from the spec: `couchapp.localdoc.document(path, create=True)`
is not under `src/`; the spec scopes the manifest document out as an
opaque external collaborator ("the core only creates an id marker file
and invokes an opaque `init document` operation"), so it is modelled as
having no effect on the modelled tree. -/
def localdoc_document (fs : FSNode) (_path : FsPath) : FSNode × Option PyErr :=
  (fs, none)

/-- `init_basic(path)` (lines 39–58): require the app path absent or
empty, create the `DEFAULT_APP_TREE` directories beneath it, write the
`_id` marker `_design/<last path component>`, and invoke the manifest
collaborator.  (The `require_empty` value of the `setup_dirs` call is a
`couchapp.util` default not under `src/`; under `init_basic`'s
empty-path precondition the subdirectories are fresh, so either value
yields the same state.) -/
def init_basic (fs : FSNode) (path : FsPath) : FSNode × Option PyErr :=
  match setup_dir fs path true with
  | (fs1, some e) => (fs1, some e)
  | (fs1, none) =>
    match setup_dirs fs1 (DEFAULT_APP_TREE.map (fun n => path ++ [n])) true with
    | (fs2, some e) => (fs2, some e)
    | (fs2, none) =>
      match save_id fs2 path ("_design/" ++ (path.getLast?.getD "")) with
      | (fs3, some e) => (fs3, some e)
      | (fs3, none) => localdoc_document fs3 path

/-- `init_template(path, template='default')` (lines 61–122): reject a
reserved type name, resolve the `app` template (raising when missing)
and merge-copy it onto `path`, ensure the standard tree, resolve
`vendor` without raising (falling back to the default set's `vendor`),
merge-copy whatever that produced — possibly `None` — into
`path/vendor`, then write the id marker and invoke the collaborator. -/
def init_template (env : Env) (fs : FSNode) (path : FsPath) (template : String) :
    FSNode × Option PyErr :=
  if template ∈ TEMPLATE_TYPES then
    (fs, some (.appError "template name connot be ('app', 'functions', 'vendor')."))
  else
    let tmpl_name := if template ≠ "" then normpathStr template else ""
    match find_template_dir env (isdirFS fs) tmpl_name "app" true with
    | .error e => (fs, some e)
    | .ok none =>
      -- unreachable: with `raise_error = true` a failed search returns
      -- the `AppError` through the `.error` case above
      (fs, some (.appError ("template \"" ++ tmpl_name ++ "/app\" not found.")))
    | .ok (some src_dir) =>
      match copy_helper fs (some src_dir) path with
      | (fs1, some e) => (fs1, some e)
      | (fs1, none) =>
        match setup_dirs fs1 (DEFAULT_APP_TREE.map (fun n => path ++ [n])) false with
        | (fs2, some e) => (fs2, some e)
        | (fs2, none) =>
          let src0 : Option FsPath :=
            match find_template_dir env (isdirFS fs2) tmpl_name "vendor" false with
            | .ok r => r
            | .error _ => none
          let src1 : Option FsPath :=
            match src0 with
            | some s => some s
            | none =>
              match find_template_dir env (isdirFS fs2) "default" "vendor" false with
              | .ok r => r
              | .error _ => none
          match copy_helper fs2 src1 (path ++ ["vendor"]) with
          | (fs3, some e) => (fs3, some e)
          | (fs3, none) =>
            match save_id fs3 path ("_design/" ++ (path.getLast?.getD "")) with
            | (fs4, some e) => (fs4, some e)
            | (fs4, none) => localdoc_document fs4 path

/-- The outcome of a `generate`/`generate_function` call: the reached
filesystem, the `logger.warning` messages emitted, and the exception
that propagated out, if any. -/
structure GenOut : Type where
  fs : FSNode
  warnings : List String
  err : Option PyErr

/-- Line 167 evaluates `shutil.copy2(root, target_path)`, but line 12
imports only `copy2` and `copytree` out of `shutil` and the module
never imports `shutil` itself: evaluating the name `shutil` raises
`NameError` before any copying can happen. -/
def shutil_copy2 (_fs : FSNode) (_root _target_path : FsPath) :
    Except PyErr FSNode :=
  .error .nameError

/-- The skeleton-copy loop of `generate_function` (lines 162–170): each
iteration attempts `shutil.copy2(root, target_path)` and the bare
`except` turns any raised exception into the
`"%s not found in %s"` warning, continuing with the next pair. -/
def copyFunctions (fs : FSNode) (template_dir : FsPath)
    (functions_path : List String) (dest : FsPath) :
    List (String × String) → FSNode × List String
  | [] => (fs, [])
  | (tmpl, target) :: rest =>
    let target_path := dest ++ [target]
    let root := template_dir ++ functions_path ++ [tmpl]
    match shutil_copy2 fs root target_path with
    | .ok fs' => copyFunctions fs' template_dir functions_path dest rest
    | .error _ =>
      let w := tmpl ++ " not found in " ++ pathStr (template_dir ++ functions_path)
      let (fs2, ws) := copyFunctions fs template_dir functions_path dest rest
      (fs2, w :: ws)

/-- `generate_function(path, kind, name, template=None)` (lines
125–172).  With an explicit `template` the skeleton root is that
template set's directory itself (`functions_path = []`), otherwise the
default set's `functions` directory.  The `view` destination must not
already exist; the `vendor` branch creates `path/vendor/<name>`
(swallowing any `os.makedirs` failure) and then calls
`copy_helper(path, targetpath)` — the app directory as source and the
template argument's path as destination — and returns; every other kind
falls through to a swallowed `os.makedirs` of the destination and the
skeleton-copy loop. -/
def generate_function (env : Env) (fs : FSNode) (path : FsPath)
    (kind name : String) (template : Option String) : GenOut :=
  let functions_path : List String :=
    match template with
    | some _ => []
    | none => ["functions"]
  let template_dir : Option FsPath :=
    match template with
    | some t =>
      match find_template_dir env (isdirFS fs) (pathStr (splitSlash t)) "" false with
      | .ok r => r
      | .error _ => none   -- unreachable: tmpl_type "" is always valid
    | none =>
      match find_template_dir env (isdirFS fs) "default" "" false with
      | .ok r => r
      | .error _ => none
  match template_dir with
  | none => ⟨fs, [], some (.appError "Defaults templates not found. Check your install.")⟩
  | some tdir =>
    if kind = "view" ∧ existsFS fs (path ++ ["views", name]) then
      ⟨fs, [], some (.appError ("The view " ++ name ++ " already exists"))⟩
    else if kind = "vendor" then
      let app_dir := path ++ ["vendor", name]
      -- lines 144–147: try os.makedirs(app_dir) except: pass
      let fs1 := (ensureDirs fs app_dir).getD fs
      match template with
      | none => ⟨fs1, [], some .attributeError⟩   -- line 148: `None.split('/')`
      | some t =>
        let targetpath := splitSlash t
        -- line 149: `copy_helper(path, targetpath)`
        let (fs2, e) := copy_helper fs1 (some path) targetpath
        ⟨fs2, [], e⟩
    else
      let (dest, functions) :=
        if kind = "view" then
          (path ++ ["views", name],
           [("map.js", "map.js"), ("reduce.js", "reduce.js")])
        else if kind = "function" then
          -- lines 140–141: this branch does not extend `path`, so the
          -- destination is the app directory itself, not `functions/`
          (path, [(name ++ ".js", name ++ ".js")])
        else if kind = "spatial" then
          (path ++ ["spatial"], [("spatial.js", name ++ ".js")])
        else
          (path ++ [kind ++ "s"], [(kind ++ ".js", name ++ ".js")])
      -- lines 157–160: try os.makedirs(path) except: pass
      let fs1 := (ensureDirs fs dest).getD fs
      let (fs2, ws) := copyFunctions fs1 tdir functions_path dest functions
      ⟨fs2, ws, none⟩

/-- `generate_vendor` is called on line 313 but defined nowhere in the
module and never imported: evaluating the name raises `NameError`. -/
def generate_vendor (_env : Env) (fs : FSNode) (_path : FsPath)
    (_name : String) (_template : Option String) : GenOut :=
  ⟨fs, [], some .nameError⟩

/-- `generate(path, kind, name, **opts)` (lines 301–314).  `name` is an
`Option` to model Python's `None`; the guard checks only
`name is None`, so the empty string passes validation. -/
def generate (env : Env) (fs : FSNode) (path : FsPath) (kind : String)
    (name : Option String) (template : Option String) : GenOut :=
  if kind ∉ ["view", "list", "show", "filter", "function", "vendor",
             "update", "spatial"] then
    ⟨fs, [], some (.appError ("Can't generate '" ++ kind ++
      "' in your couchapp. generator is unknown."))⟩
  else
    match name with
    | none =>
      ⟨fs, [], some (.appError ("Can't generate '" ++ kind ++
        "' function, name is missing"))⟩
    | some n =>
      if kind = "vendor" then generate_vendor env fs path n template
      else generate_function env fs path kind n template

/-- Two paths diverge when they agree on a common prefix and then both
continue with different components: neither is a prefix of the other,
so writes under one cannot affect reads under the other. -/
def divergesB : FsPath → FsPath → Bool
  | [], _ => false
  | _ :: _, [] => false
  | a :: p, b :: q => if a = b then divergesB p q else true

/-- Decidable equality for `Except`, used to evaluate the model at
concrete inputs. -/
instance {e a : Type} [DecidableEq e] [DecidableEq a] : DecidableEq (Except e a) :=
  fun x y =>
    match x, y with
    | .ok u, .ok v =>
      if h : u = v then isTrue (by rw [h]) else isFalse (by simp [h])
    | .error u, .error v =>
      if h : u = v then isTrue (by rw [h]) else isFalse (by simp [h])
    | .ok _, .error _ => isFalse (by simp)
    | .error _, .ok _ => isFalse (by simp)

/-- The candidate-root precedence order as the SPEC states it: user
configuration paths first, then the directory containing the tool's
code, then the parent of that directory, then the platform-specific
roots (posix share directories, or the py2exe executable directory, or
the Windows interpreter's site-packages), with the macOS root appended
last.  Written from the spec's words, to be compared with the code's
`search_paths` in C1. -/
def specSearchOrder (env : Env) : List FsPath :=
  env.userPaths ++ [env.modpath, env.modpath ++ [".."]] ++
  (if env.posix then
    [["usr", "share", "couchapp"],
     ["usr", "local", "share", "couchapp"],
     ["opt", "couchapp"]]
   else if env.py2exe then [env.exeDir]
   else if env.windows then [env.sysPref ++ ["Lib", "site-packages", "couchapp"]]
   else []) ++
  (if env.darwin then [env.darwinSupport] else [])

/-- The probe paths `<root>/templates/<tmpl_name>/<tmpl_type>` of the
spec's roots, in precedence order (with the code's `default` → empty
name normalisation and `normpath` of the root). -/
def specProbes (env : Env) (tmpl_name tmpl_type : String) : List FsPath :=
  (specSearchOrder env).map
    (fun r => probePath r (if tmpl_name = "default" then "" else tmpl_name) tmpl_type)

/-- A concrete environment shared by the witnesses: one user
configuration path, a posix platform, no darwin root. -/
def envW : Env :=
  { userPaths := [["home", ".couchapp"]], modpath := ["lib", "couchapp"],
    posix := true, py2exe := false, windows := false, darwin := false,
    exeDir := [], sysPref := [], darwinSupport := [] }

/-- An `isdir` oracle for the C1 witness: exactly the module
directory's probe path is a directory. -/
def isdirW (p : FsPath) : Bool :=
  decide (p = ["lib", "couchapp", "templates", "app"])

/-! ### Concrete states used by witnesses and counterexamples -/

/-- C2 fixture: a source directory holding one file and one
subdirectory, next to an (absent) destination. -/
def srcW : FsPath := ["srcdir"]

/-- C2 fixture: the destination path. -/
def destW : FsPath := ["destdir"]

/-- C2 fixture: the source's children. -/
def csW : List (String × FSNode) :=
  [("a.txt", .file "AAA" 7), ("sub", .dir [("b.txt", .file "BBB" 8)])]

/-- C2 fixture: the whole filesystem. -/
def fsW2 : FSNode := .dir [("srcdir", .dir csW)]

/-- C2 fixture: the state after the first merge-copy. -/
def fsW2' : FSNode := (copy_helper fsW2 (some srcW) destW).1

/-- C3/C4/C8 fixture: the default template set provides `functions` with
both view skeletons; the app at `app` has an empty `views` directory. -/
def fsView : FSNode :=
  .dir [("home", .dir [(".couchapp", .dir [("templates", .dir [
          ("functions", .dir [("map.js", .file "// map" 1),
                              ("reduce.js", .file "// reduce" 2)])])])]),
        ("app", .dir [("views", .dir [])])]

/-- C3 fixture: the state after the first `view` generation. -/
def fsView1 : FSNode := (generate envW fsView ["app"] "view" (some "byDate") none).fs

/-- C5 fixture: an app holding one file, and a vendor template source at
`vendorsrc` (also registered under the user search root so the template
lookup succeeds). -/
def fsVend : FSNode :=
  .dir [("home", .dir [(".couchapp", .dir [("templates", .dir [
          ("vendorsrc", .dir [("jquery.js", .file "JQ" 1)])])])]),
        ("app", .dir [("x.txt", .file "XX" 3)]),
        ("vendorsrc", .dir [("jquery.js", .file "JQ" 1)])]

/-- C6 fixture: the functions template provides only `map.js`
(`reduce.js` is missing); the app at `app` is fresh. -/
def fsC6 : FSNode :=
  .dir [("home", .dir [(".couchapp", .dir [("templates", .dir [
          ("functions", .dir [("map.js", .file "// map" 1)])])])]),
        ("app", .dir [("views", .dir [])])]

/-- C7 fixture: the functions template provides `validate.js`; the app
at `app` is fresh. -/
def fsC7 : FSNode :=
  .dir [("home", .dir [(".couchapp", .dir [("templates", .dir [
          ("functions", .dir [("validate.js", .file "// v" 1)])])])]),
        ("app", .dir [("views", .dir [])])]

/-- C10 fixture: the template set `mytmpl` provides `app` but no
`vendor`, and the default set provides no `vendor` either. -/
def fsC10 : FSNode :=
  .dir [("home", .dir [(".couchapp", .dir [("templates", .dir [
          ("mytmpl", .dir [("app", .dir [("index.html", .file "<html>" 4)])])])])])]

/-- C10 fixture: where the `app` template of `mytmpl` resolves. -/
def srcC10 : FsPath := ["home", ".couchapp", "templates", "mytmpl", "app"]

/-- C10 fixture: the state after the `app` payload is merge-copied onto
the app path. -/
def fsC10a : FSNode := (copy_helper fsC10 (some srcC10) ["theapp"]).1

/-- C10 fixture: the state after the standard tree is ensured. -/
def fsC10b : FSNode :=
  (setup_dirs fsC10a (DEFAULT_APP_TREE.map (fun n => ["theapp"] ++ [n])) false).1
-- lemma block draft (appended to main file copy)
/-! ### Association-list and path lemmas -/

theorem assocFind_assocSet_self (cs : List (String × FSNode)) (k : String) (v : FSNode) :
    assocFind (assocSet cs k v) k = some v := by
  induction cs with
  | nil => simp [assocSet, assocFind]
  | cons hd t ih =>
    obtain ⟨a, b⟩ := hd
    by_cases h : a = k
    · simp [assocSet, assocFind, h]
    · simp [assocSet, assocFind, h, ih]

theorem assocFind_assocSet_ne (cs : List (String × FSNode)) (k a : String) (v : FSNode)
    (h : a ≠ k) : assocFind (assocSet cs k v) a = assocFind cs a := by
  induction cs with
  | nil => simp [assocSet, assocFind, h, Ne.symm h]
  | cons hd t ih =>
    obtain ⟨x, y⟩ := hd
    by_cases hx : x = k
    · subst hx
      simp [assocSet, assocFind, h, Ne.symm h]
    · simp [assocSet, assocFind, hx, ih]

theorem assocSet_self (cs : List (String × FSNode)) (k : String) (c : FSNode)
    (h : assocFind cs k = some c) : assocSet cs k c = cs := by
  induction cs with
  | nil => simp [assocFind] at h
  | cons hd t ih =>
    obtain ⟨a, b⟩ := hd
    by_cases ha : a = k
    · subst ha
      simp [assocFind] at h
      simp [assocSet, h]
    · simp [assocFind, ha] at h
      simp [assocSet, ha, ih h]

theorem assocSet_append (cs : List (String × FSNode)) (k : String) (v : FSNode)
    (h : assocFind cs k = none) : assocSet cs k v = cs ++ [(k, v)] := by
  induction cs with
  | nil => simp [assocSet]
  | cons hd t ih =>
    obtain ⟨a, b⟩ := hd
    by_cases ha : a = k
    · simp [assocFind, ha] at h
    · simp [assocFind, ha] at h
      simp [assocSet, ha, ih h]

theorem assocFind_append_self (cs : List (String × FSNode)) (k : String) (v : FSNode)
    (h : assocFind cs k = none) : assocFind (cs ++ [(k, v)]) k = some v := by
  induction cs with
  | nil => simp [assocFind]
  | cons hd t ih =>
    obtain ⟨a, b⟩ := hd
    by_cases ha : a = k
    · simp [assocFind, ha] at h
    · simp [assocFind, ha] at h ⊢
      exact ih h

theorem assocFind_of_mem_nodup (cs : List (String × FSNode)) (x : String × FSNode)
    (hmem : x ∈ cs) (hnd : (cs.map Prod.fst).Nodup) : assocFind cs x.1 = some x.2 := by
  induction cs with
  | nil => simp at hmem
  | cons hd t ih =>
    obtain ⟨a, b⟩ := hd
    simp only [List.map_cons, List.nodup_cons] at hnd
    rcases List.mem_cons.mp hmem with h | h
    · subst h
      simp [assocFind]
    · have hne : x.1 ≠ a := by
        intro he
        exact hnd.1 (he ▸ (List.mem_map.mpr ⟨x, h, rfl⟩))
      simp [assocFind, Ne.symm hne, hne, ih h hnd.2]

/-! ### Divergence lemmas -/

theorem divergesB_append (p q a b : FsPath) (h : divergesB p q = true) :
    divergesB (p ++ a) (q ++ b) = true := by
  induction p generalizing q with
  | nil => simp [divergesB] at h
  | cons x p' ih =>
    cases q with
    | nil => simp [divergesB] at h
    | cons y q' =>
      simp only [List.cons_append]
      by_cases hxy : x = y
      · subst hxy
        simp only [divergesB, if_pos] at h ⊢
        exact ih q' h
      · simp [divergesB, hxy]

theorem divergesB_sibling (c : FsPath) (a b : String) (p q : FsPath) (h : a ≠ b) :
    divergesB (c ++ a :: p) (c ++ b :: q) = true := by
  induction c with
  | nil => simp [divergesB, h]
  | cons x c' ih => simp [divergesB, ih]

/-! ### Frame lemmas: writes under one path do not affect diverging reads -/

theorem lookupFS_freshChain_div (p q : FsPath) (h : divergesB p q = true) :
    lookupFS (freshChain q) p = none := by
  induction q generalizing p with
  | nil => cases p <;> simp [divergesB] at h
  | cons k q' ih =>
    cases p with
    | nil => simp [divergesB] at h
    | cons a p' =>
      by_cases hak : a = k
      · subst hak
        simp only [divergesB, if_pos] at h
        simp [freshChain, lookupFS, assocFind, ih p' h]
      · simp [freshChain, lookupFS, assocFind, hak, Ne.symm hak]

theorem lookupFS_freshChain_self (q : FsPath) :
    lookupFS (freshChain q) q = some (.dir []) := by
  induction q with
  | nil => simp [freshChain, lookupFS]
  | cons k q' ih => simp [freshChain, lookupFS, assocFind, ih]

theorem lookupFS_updateFS_div (n n' : FSNode) (p q : FsPath) (v : FSNode)
    (hup : updateFS n q v = some n') (hd : divergesB p q = true) :
    lookupFS n' p = lookupFS n p := by
  induction q generalizing n n' p with
  | nil =>
    exfalso
    cases p <;> simp [divergesB] at hd
  | cons k q' ih =>
    cases n with
    | file c m => simp [updateFS] at hup
    | dir cs =>
      cases p with
      | nil => simp [divergesB] at hd
      | cons a p' =>
        cases q' with
        | nil =>
          simp only [updateFS, Option.some.injEq] at hup
          subst hup
          by_cases hak : a = k
          · subst hak
            exfalso
            simp only [divergesB, if_pos] at hd
            cases p' <;> simp [divergesB] at hd
          · simp [lookupFS, assocFind_assocSet_ne cs k a v hak]
        | cons k2 q2 =>
          simp only [updateFS] at hup
          rcases hc : assocFind cs k with _ | c
          · simp only [hc] at hup
            simp at hup
          · simp only [hc] at hup
            rcases hc' : updateFS c (k2 :: q2) v with _ | c'
            · simp only [hc'] at hup
              simp at hup
            · simp only [hc'] at hup
              simp only [Option.some.injEq] at hup
              subst hup
              by_cases hak : a = k
              · subst hak
                simp only [divergesB, if_pos] at hd
                simp only [lookupFS, assocFind_assocSet_self cs a c', hc]
                exact ih c c' p' hc' hd
              · simp [lookupFS, assocFind_assocSet_ne cs k a c' hak]

theorem lookupFS_ensureDirs_div (n n' : FSNode) (p q : FsPath)
    (hup : ensureDirs n q = some n') (hd : divergesB p q = true) :
    lookupFS n' p = lookupFS n p := by
  induction q generalizing n n' p with
  | nil =>
    exfalso
    cases p <;> simp [divergesB] at hd
  | cons k q' ih =>
    cases n with
    | file c m => simp [ensureDirs] at hup
    | dir cs =>
      cases p with
      | nil => simp [divergesB] at hd
      | cons a p' =>
        simp only [ensureDirs] at hup
        rcases hc : assocFind cs k with _ | c
        · simp only [hc] at hup
          simp only [Option.some.injEq] at hup
          subst hup
          by_cases hak : a = k
          · subst hak
            simp only [divergesB, if_pos] at hd
            simp only [lookupFS, assocFind_assocSet_self cs a (freshChain q'), hc]
            exact lookupFS_freshChain_div p' q' hd
          · simp [lookupFS, assocFind_assocSet_ne cs k a (freshChain q') hak]
        · simp only [hc] at hup
          rcases hc' : ensureDirs c q' with _ | c'
          · simp only [hc'] at hup
            simp at hup
          · simp only [hc'] at hup
            simp only [Option.some.injEq] at hup
            subst hup
            by_cases hak : a = k
            · subst hak
              simp only [divergesB, if_pos] at hd
              simp only [lookupFS, assocFind_assocSet_self cs a c', hc]
              exact ih c c' p' hc' hd
            · simp [lookupFS, assocFind_assocSet_ne cs k a c' hak]

/-! ### Creation and child-append lemmas -/

theorem ensureDirs_of_isdir (n : FSNode) (q : FsPath) (h : isdirFS n q = true) :
    ensureDirs n q = some n := by
  induction q generalizing n with
  | nil =>
    cases n with
    | file c m => simp [isdirFS, lookupFS] at h
    | dir cs => simp [ensureDirs]
  | cons k q' ih =>
    cases n with
    | file c m => simp [isdirFS, lookupFS] at h
    | dir cs =>
      simp only [isdirFS, lookupFS] at h
      rcases hc : assocFind cs k with _ | c
      · simp [hc] at h
      · simp only [hc] at h
        have hq' : isdirFS c q' = true := by
          simpa [isdirFS] using h
        simp only [ensureDirs, hc, ih c hq']
        rw [assocSet_self cs k c hc]

theorem lookupFS_ensureDirs_fresh (n n' : FSNode) (q : FsPath)
    (hup : ensureDirs n q = some n') (habs : lookupFS n q = none) :
    lookupFS n' q = some (.dir []) := by
  induction q generalizing n n' with
  | nil => simp [lookupFS] at habs
  | cons k q' ih =>
    cases n with
    | file c m => simp [ensureDirs] at hup
    | dir cs =>
      simp only [ensureDirs] at hup
      simp only [lookupFS] at habs
      rcases hc : assocFind cs k with _ | c
      · simp only [hc] at hup
        simp only [Option.some.injEq] at hup
        subst hup
        simp only [lookupFS, assocFind_assocSet_self cs k (freshChain q')]
        exact lookupFS_freshChain_self q'
      · simp only [hc] at hup habs
        rcases hc' : ensureDirs c q' with _ | c'
        · simp only [hc'] at hup
          simp at hup
        · simp only [hc'] at hup
          simp only [Option.some.injEq] at hup
          subst hup
          simp only [lookupFS, assocFind_assocSet_self cs k c']
          exact ih c c' hc' habs

theorem lookupFS_append_child (n : FSNode) (q : FsPath) (cs : List (String × FSNode))
    (k : String) (h : lookupFS n q = some (.dir cs)) :
    lookupFS n (q ++ [k]) = assocFind cs k := by
  induction q generalizing n with
  | nil =>
    simp only [lookupFS, Option.some.injEq] at h
    subst h
    cases hc : assocFind cs k with
    | none => simp [lookupFS, hc]
    | some c => simp [lookupFS, hc]
  | cons a q' ih =>
    cases n with
    | file c m => simp [lookupFS] at h
    | dir ds =>
      simp only [lookupFS] at h
      rcases hd : assocFind ds a with _ | d
      · simp [hd] at h
      · simp only [hd] at h
        simp only [List.cons_append, lookupFS, hd]
        exact ih d h

theorem updateFS_append_child (n : FSNode) (q : FsPath) (cs : List (String × FSNode))
    (k : String) (v : FSNode) (h : lookupFS n q = some (.dir cs)) :
    ∃ n', updateFS n (q ++ [k]) v = some n' ∧
      lookupFS n' q = some (.dir (assocSet cs k v)) ∧
      lookupFS n' (q ++ [k]) = some v := by
  induction q generalizing n with
  | nil =>
    simp only [lookupFS, Option.some.injEq] at h
    subst h
    refine ⟨.dir (assocSet cs k v), ?_, ?_, ?_⟩
    · simp [updateFS]
    · simp [lookupFS]
    · simp [lookupFS, assocFind_assocSet_self]
  | cons a q' ih =>
    cases n with
    | file c m => simp [lookupFS] at h
    | dir ds =>
      simp only [lookupFS] at h
      rcases hd : assocFind ds a with _ | d
      · simp [hd] at h
      · simp only [hd] at h
        rcases ih d h with ⟨d', hup, hl1, hl2⟩
        refine ⟨.dir (assocSet ds a d'), ?_, ?_, ?_⟩
        · cases q' with
          | nil =>
            simp only [List.nil_append] at hup
            simp only [List.cons_append, List.nil_append, updateFS, hd]
            simp [hup]
          | cons b q2 =>
            simp only [List.cons_append] at hup ⊢
            simp only [updateFS, hd]
            simp [hup]
        · simp [lookupFS, assocFind_assocSet_self, hl1]
        · simp [List.cons_append, lookupFS, assocFind_assocSet_self, hl2]

theorem ensureDirs_append_child (n : FSNode) (q : FsPath) (cs : List (String × FSNode))
    (k : String) (h : lookupFS n q = some (.dir cs)) (habs : assocFind cs k = none) :
    ∃ n', ensureDirs n (q ++ [k]) = some n' ∧
      lookupFS n' q = some (.dir (cs ++ [(k, .dir [])])) ∧
      lookupFS n' (q ++ [k]) = some (.dir []) := by
  induction q generalizing n with
  | nil =>
    simp only [lookupFS, Option.some.injEq] at h
    subst h
    refine ⟨.dir (assocSet cs k (.dir [])), ?_, ?_, ?_⟩
    · simp [ensureDirs, habs, freshChain]
    · simp [lookupFS, assocSet_append cs k _ habs]
    · simp [lookupFS, assocFind_assocSet_self]
  | cons a q' ih =>
    cases n with
    | file c m => simp [lookupFS] at h
    | dir ds =>
      simp only [lookupFS] at h
      rcases hd : assocFind ds a with _ | d
      · simp [hd] at h
      · simp only [hd] at h
        rcases ih d h with ⟨d', hup, hl1, hl2⟩
        refine ⟨.dir (assocSet ds a d'), ?_, ?_, ?_⟩
        · simp only [List.cons_append, ensureDirs, hd]
          simp [hup]
        · simp [lookupFS, assocFind_assocSet_self, hl1]
        · simp [List.cons_append, lookupFS, assocFind_assocSet_self, hl2]

theorem isdirFS_ensureDirs_mono (n n' : FSNode) (p q : FsPath)
    (hup : ensureDirs n q = some n') (h : isdirFS n p = true) :
    isdirFS n' p = true := by
  induction q generalizing n n' p with
  | nil =>
    cases n with
    | file c m => simp [ensureDirs] at hup
    | dir cs =>
      simp only [ensureDirs, Option.some.injEq] at hup
      subst hup
      exact h
  | cons k q' ih =>
    cases n with
    | file c m => simp [ensureDirs] at hup
    | dir cs =>
      simp only [ensureDirs] at hup
      rcases hc : assocFind cs k with _ | c
      · simp only [hc, Option.some.injEq] at hup
        subst hup
        cases p with
        | nil => simp [isdirFS, lookupFS]
        | cons a p' =>
          by_cases hak : a = k
          · subst hak
            simp only [isdirFS, lookupFS, hc] at h
            simp at h
          · simpa [isdirFS, lookupFS, assocFind_assocSet_ne cs k a _ hak]
              using h
      · simp only [hc] at hup
        rcases hc' : ensureDirs c q' with _ | c'
        · simp only [hc'] at hup
          simp at hup
        · simp only [hc', Option.some.injEq] at hup
          subst hup
          cases p with
          | nil => simp [isdirFS, lookupFS]
          | cons a p' =>
            by_cases hak : a = k
            · subst hak
              simp only [isdirFS, lookupFS, hc] at h
              have := ih c c' p' hc' (by simpa [isdirFS] using h)
              simpa [isdirFS, lookupFS, assocFind_assocSet_self] using this
            · simpa [isdirFS, lookupFS, assocFind_assocSet_ne cs k a _ hak]
                using h

/-! ### `setup_dir` / `setup_dirs` lemmas -/

theorem isdirFS_iff (n : FSNode) (p : FsPath) :
    isdirFS n p = true ↔ ∃ cs, lookupFS n p = some (.dir cs) := by
  unfold isdirFS
  rcases h : lookupFS n p with _ | c
  · simp
  · cases c <;> simp

theorem setup_dir_ok (fs fs' : FSNode) (dest : FsPath) (re : Bool)
    (h : setup_dir fs dest re = (fs', none)) :
    (∀ p, divergesB p dest = true → lookupFS fs' p = lookupFS fs p) ∧
    ∃ es, lookupFS fs' dest = some (.dir es) ∧
      (lookupFS fs dest = some (.dir es) ∨ (lookupFS fs dest = none ∧ es = [])) := by
  unfold setup_dir at h
  rcases hl : lookupFS fs dest with _ | c
  · simp only [hl] at h
    rcases he : ensureDirs fs dest with _ | fs2
    · simp only [he] at h
      simp at h
    · simp only [he] at h
      simp only [Prod.mk.injEq] at h
      obtain ⟨rfl, -⟩ := h
      refine ⟨fun p hp => lookupFS_ensureDirs_div fs fs2 p dest he hp, [], ?_, ?_⟩
      · exact lookupFS_ensureDirs_fresh fs fs2 dest he hl
      · exact Or.inr ⟨rfl, rfl⟩
  · cases c with
    | file c m =>
      simp only [hl] at h
      simp at h
    | dir cs =>
      simp only [hl] at h
      by_cases hre : re = true ∧ cs.isEmpty = false
      · rw [if_pos hre] at h
        simp at h
      · rw [if_neg hre] at h
        simp only [Prod.mk.injEq] at h
        obtain ⟨rfl, -⟩ := h
        exact ⟨fun p _ => rfl, cs, hl, Or.inl rfl⟩

theorem setup_dir_of_isdir (fs : FSNode) (dest : FsPath) (cs : List (String × FSNode))
    (h : lookupFS fs dest = some (.dir cs)) :
    setup_dir fs dest false = (fs, none) := by
  simp [setup_dir, h]

theorem setup_dir_isdir_mono (fs fs' : FSNode) (dest p : FsPath) (re : Bool)
    (h : setup_dir fs dest re = (fs', none)) (hp : isdirFS fs p = true) :
    isdirFS fs' p = true := by
  unfold setup_dir at h
  rcases hl : lookupFS fs dest with _ | c
  · simp only [hl] at h
    rcases he : ensureDirs fs dest with _ | fs2
    · simp only [he] at h
      simp at h
    · simp only [he] at h
      simp only [Prod.mk.injEq] at h
      obtain ⟨rfl, -⟩ := h
      exact isdirFS_ensureDirs_mono fs fs2 p dest he hp
  · cases c with
    | file c m =>
      simp only [hl] at h
      simp at h
    | dir cs =>
      simp only [hl] at h
      by_cases hre : re = true ∧ cs.isEmpty = false
      · rw [if_pos hre] at h
        simp at h
      · rw [if_neg hre] at h
        simp only [Prod.mk.injEq] at h
        obtain ⟨rfl, -⟩ := h
        exact hp

theorem setup_dirs_isdir_mono (ps : List FsPath) (fs fs' : FSNode) (re : Bool)
    (p : FsPath) (h : setup_dirs fs ps re = (fs', none)) (hp : isdirFS fs p = true) :
    isdirFS fs' p = true := by
  induction ps generalizing fs with
  | nil =>
    simp only [setup_dirs, Prod.mk.injEq] at h
    obtain ⟨rfl, -⟩ := h
    exact hp
  | cons q rest ih =>
    simp only [setup_dirs] at h
    rcases hs : setup_dir fs q re with ⟨fs1, e⟩
    rcases e with _ | e
    · simp only [hs] at h
      exact ih fs1 h (setup_dir_isdir_mono fs fs1 q p re hs hp)
    · simp only [hs] at h
      simp at h

theorem setup_dirs_post (ps : List FsPath) (fs fs' : FSNode) (re : Bool)
    (h : setup_dirs fs ps re = (fs', none)) :
    ∀ p ∈ ps, isdirFS fs' p = true := by
  induction ps generalizing fs with
  | nil => simp
  | cons q rest ih =>
    simp only [setup_dirs] at h
    rcases hs : setup_dir fs q re with ⟨fs1, e⟩
    rcases e with _ | e
    · simp only [hs] at h
      intro p hp
      rcases List.mem_cons.mp hp with rfl | hp'
      · have hq : isdirFS fs1 p = true := by
          rcases setup_dir_ok fs fs1 p re hs with ⟨-, es, hes, -⟩
          exact (isdirFS_iff fs1 p).mpr ⟨es, hes⟩
        exact setup_dirs_isdir_mono rest fs1 fs' re p h hq
      · exact ih fs1 h p hp'
    · simp only [hs] at h
      simp at h

/-! ### `copyEntries` lemmas -/

theorem copyEntries_post (src dest : FsPath) (hdiv : divergesB src dest = true)
    (l : List (String × FSNode)) :
    ∀ (fs fs' : FSNode),
    (∀ x ∈ l, lookupFS fs (src ++ [x.1]) = some x.2) →
    (l.map Prod.fst).Nodup →
    (∃ es, lookupFS fs dest = some (.dir es)) →
    copyEntries fs src dest (l.map Prod.fst) = (fs', none) →
    (∀ x ∈ l, lookupFS fs' (dest ++ [x.1]) = some x.2) ∧
    (∀ p, divergesB p dest = true → lookupFS fs' p = lookupFS fs p) ∧
    (∀ k, ¬(k ∈ l.map Prod.fst) → lookupFS fs' (dest ++ [k]) = lookupFS fs (dest ++ [k])) ∧
    (∃ es', lookupFS fs' dest = some (.dir es')) := by
  induction l with
  | nil =>
    intro fs fs' _ _ hdest h
    simp only [List.map_nil, copyEntries, Prod.mk.injEq] at h
    obtain ⟨rfl, -⟩ := h
    exact ⟨by simp, fun p _ => rfl, fun k _ => rfl, hdest⟩
  | cons hd t ih =>
    intro fs fs' hread hnd hdest h
    obtain ⟨n, v⟩ := hd
    obtain ⟨es, hes⟩ := hdest
    simp only [List.map_cons, List.nodup_cons] at hnd
    have hrhd : lookupFS fs (src ++ [n]) = some v := hread (n, v) (by simp)
    obtain ⟨fs1, hupd, hdest1, hchild1⟩ :=
      updateFS_append_child fs dest es n v hes
    have hfs1 :
        copyEntries fs src dest (n :: t.map Prod.fst) = copyEntries fs1 src dest (t.map Prod.fst) := by
      cases v with
      | file c m =>
        have hnd' : isdirFS fs (src ++ [n]) = false := by
          simp [isdirFS, hrhd]
        simp only [copyEntries, hnd']
        have : copy2 fs (src ++ [n]) (dest ++ [n]) = .ok fs1 := by
          simp [copy2, hrhd, hupd]
        simp [this]
      | dir ds =>
        have hid : isdirFS fs (src ++ [n]) = true := by
          simp [isdirFS, hrhd]
        have hnex : existsFS fs (dest ++ [n]) = false := by
          by_contra hex
          have hex' : existsFS fs (dest ++ [n]) = true := by
            simpa using hex
          have : copytree fs (src ++ [n]) (dest ++ [n]) = .error .fileExists := by
            simp [copytree, hex']
          rw [List.map_cons] at h
          simp only [copyEntries, hid, if_pos, this] at h
          simp at h
        have : copytree fs (src ++ [n]) (dest ++ [n]) = .ok fs1 := by
          simp [copytree, hnex, hrhd, hupd]
        simp only [copyEntries, hid, if_pos, this]
    rw [List.map_cons, hfs1] at h
    have hreads1 : ∀ x ∈ t, lookupFS fs1 (src ++ [x.1]) = some x.2 := by
      intro x hx
      have hdvg : divergesB (src ++ [x.1]) (dest ++ [n]) = true :=
        divergesB_append src dest [x.1] [n] hdiv
      rw [lookupFS_updateFS_div fs fs1 (src ++ [x.1]) (dest ++ [n]) v hupd hdvg]
      exact hread x (by simp [hx])
    obtain ⟨ih1, ih2, ih3, ih4⟩ :=
      ih fs1 fs' hreads1 hnd.2 ⟨assocSet es n v, hdest1⟩ h
    refine ⟨?_, ?_, ?_, ih4⟩
    · intro x hx
      rcases List.mem_cons.mp hx with rfl | hx'
      · rw [ih3 n hnd.1]
        exact hchild1
      · exact ih1 x hx'
    · intro p hp
      rw [ih2 p hp]
      have hdvg : divergesB p (dest ++ [n]) = true := by
        have := divergesB_append p dest [] [n] hp
        simpa using this
      exact lookupFS_updateFS_div fs fs1 p (dest ++ [n]) v hupd hdvg
    · intro k hk
      simp only [List.map_cons, List.mem_cons] at hk
      push_neg at hk
      rw [ih3 k hk.2]
      have hdvg : divergesB (dest ++ [k]) (dest ++ [n]) = true :=
        divergesB_sibling dest k n [] [] hk.1
      exact lookupFS_updateFS_div fs fs1 (dest ++ [k]) (dest ++ [n]) v hupd hdvg

theorem copyEntries_ok (src dest : FsPath) (hdiv : divergesB src dest = true)
    (l : List (String × FSNode)) :
    ∀ (fs : FSNode),
    (∀ x ∈ l, ∃ c m, x.2 = FSNode.file c m) →
    (∀ x ∈ l, lookupFS fs (src ++ [x.1]) = some x.2) →
    (∃ es, lookupFS fs dest = some (.dir es)) →
    ∃ fs', copyEntries fs src dest (l.map Prod.fst) = (fs', none) := by
  induction l with
  | nil =>
    intro fs _ _ _
    exact ⟨fs, by simp [copyEntries]⟩
  | cons hd t ih =>
    intro fs hfile hread hdest
    obtain ⟨n, v⟩ := hd
    obtain ⟨es, hes⟩ := hdest
    obtain ⟨c, m, hv⟩ := hfile (n, v) (by simp)
    simp only at hv
    subst hv
    have hrhd : lookupFS fs (src ++ [n]) = some (.file c m) :=
      hread (n, .file c m) (by simp)
    obtain ⟨fs1, hupd, hdest1, hchild1⟩ :=
      updateFS_append_child fs dest es n (.file c m) hes
    have hnd' : isdirFS fs (src ++ [n]) = false := by
      simp [isdirFS, hrhd]
    have hcp : copy2 fs (src ++ [n]) (dest ++ [n]) = .ok fs1 := by
      simp [copy2, hrhd, hupd]
    have hreads1 : ∀ x ∈ t, lookupFS fs1 (src ++ [x.1]) = some x.2 := by
      intro x hx
      rw [lookupFS_updateFS_div fs fs1 (src ++ [x.1]) (dest ++ [n]) _ hupd
        (divergesB_append src dest [x.1] [n] hdiv)]
      exact hread x (by simp [hx])
    obtain ⟨fs', hfs'⟩ :=
      ih fs1 (fun x hx => hfile x (by simp [hx])) hreads1 ⟨_, hdest1⟩
    refine ⟨fs', ?_⟩
    simp only [List.map_cons, copyEntries, hnd', Bool.false_eq_true, if_neg, hcp]
    exact hfs'

theorem copyEntries_err (src dest : FsPath) (hdiv : divergesB src dest = true)
    (l : List (String × FSNode)) :
    ∀ (fs : FSNode),
    (∀ x ∈ l, lookupFS fs (src ++ [x.1]) = some x.2) →
    (l.map Prod.fst).Nodup →
    (∀ x ∈ l, existsFS fs (dest ++ [x.1]) = true) →
    (∃ x ∈ l, ∃ ds, x.2 = FSNode.dir ds) →
    (∃ es, lookupFS fs dest = some (.dir es)) →
    ∃ fs', copyEntries fs src dest (l.map Prod.fst) = (fs', some .fileExists) := by
  induction l with
  | nil =>
    intro fs _ _ _ hex _
    simp at hex
  | cons hd t ih =>
    intro fs hread hnd hexists hdirent hdest
    obtain ⟨n, v⟩ := hd
    obtain ⟨es, hes⟩ := hdest
    simp only [List.map_cons, List.nodup_cons] at hnd
    have hrhd : lookupFS fs (src ++ [n]) = some v := hread (n, v) (by simp)
    cases v with
    | dir ds =>
      have hid : isdirFS fs (src ++ [n]) = true := by
        simp [isdirFS, hrhd]
      have hex : existsFS fs (dest ++ [n]) = true := hexists (n, .dir ds) (by simp)
      have hct : copytree fs (src ++ [n]) (dest ++ [n]) = .error .fileExists := by
        simp [copytree, hex]
      refine ⟨fs, ?_⟩
      simp [copyEntries, hid, hct]
    | file c m =>
      obtain ⟨fs1, hupd, hdest1, hchild1⟩ :=
        updateFS_append_child fs dest es n (.file c m) hes
      have hnd' : isdirFS fs (src ++ [n]) = false := by
        simp [isdirFS, hrhd]
      have hcp : copy2 fs (src ++ [n]) (dest ++ [n]) = .ok fs1 := by
        simp [copy2, hrhd, hupd]
      have hreads1 : ∀ x ∈ t, lookupFS fs1 (src ++ [x.1]) = some x.2 := by
        intro x hx
        rw [lookupFS_updateFS_div fs fs1 (src ++ [x.1]) (dest ++ [n]) _ hupd
          (divergesB_append src dest [x.1] [n] hdiv)]
        exact hread x (by simp [hx])
      have hex1 : ∀ x ∈ t, existsFS fs1 (dest ++ [x.1]) = true := by
        intro x hx
        have hne : x.1 ≠ n := by
          intro he
          exact hnd.1 (he ▸ (List.mem_map.mpr ⟨x, hx, rfl⟩))
        unfold existsFS
        rw [lookupFS_updateFS_div fs fs1 (dest ++ [x.1]) (dest ++ [n]) _ hupd
          (divergesB_sibling dest x.1 n [] [] hne)]
        exact hexists x (by simp [hx])
      have hdir1 : ∃ x ∈ t, ∃ ds, x.2 = FSNode.dir ds := by
        rcases hdirent with ⟨x, hx, ds, hds⟩
        rcases List.mem_cons.mp hx with rfl | hx'
        · simp at hds
        · exact ⟨x, hx', ds, hds⟩
      obtain ⟨fs', hfs'⟩ := ih fs1 hreads1 hnd.2 hex1 hdir1 ⟨_, hdest1⟩
      refine ⟨fs', ?_⟩
      simp only [List.map_cons, copyEntries, hnd', Bool.false_eq_true, if_neg, hcp]
      exact hfs'

/-! ### `copy_helper` lemmas -/

theorem copy_helper_ok (fs fs1 : FSNode) (src dest : FsPath)
    (cs : List (String × FSNode))
    (hsrc : lookupFS fs src = some (.dir cs))
    (hnd : (cs.map Prod.fst).Nodup)
    (hdiv : divergesB src dest = true)
    (h : copy_helper fs (some src) dest = (fs1, none)) :
    (∀ x ∈ cs, lookupFS fs1 (dest ++ [x.1]) = some x.2) ∧
    (∀ p, divergesB p dest = true → lookupFS fs1 p = lookupFS fs p) ∧
    (∃ es', lookupFS fs1 dest = some (.dir es')) := by
  unfold copy_helper at h
  simp only [hsrc] at h
  rcases hs : setup_dir fs dest false with ⟨fsA, e⟩
  rcases e with _ | e
  · simp only [hs] at h
    obtain ⟨hframeA, esA, hesA, -⟩ := setup_dir_ok fs fsA dest false hs
    have hreadsA : ∀ x ∈ cs, lookupFS fsA (src ++ [x.1]) = some x.2 := by
      intro x hx
      have hd : divergesB (src ++ [x.1]) dest = true := by
        have := divergesB_append src dest [x.1] [] hdiv
        simpa using this
      rw [hframeA (src ++ [x.1]) hd]
      rw [lookupFS_append_child fs src cs x.1 hsrc]
      exact assocFind_of_mem_nodup cs x hx hnd
    obtain ⟨p1, p2, p3, p4⟩ :=
      copyEntries_post src dest hdiv cs fsA fs1 hreadsA hnd ⟨esA, hesA⟩ h
    refine ⟨p1, ?_, p4⟩
    intro p hp
    rw [p2 p hp, hframeA p hp]
  · simp only [hs] at h
    simp at h

/-- C2: merge-copy (`copy_helper`) overwrites same-named destination
files, preserving the source file node (content and metadata), but a
top-level source subdirectory must be absent at the destination
(`copytree`).  Hence after one successful call, a second identical call
succeeds and leaves the destination's files equal to the source's
exactly when the source has no top-level subdirectory, and fails with
the collision error (`OSError(EEXIST)` from `copytree`) when it has
one. -/
theorem C2_merge_copy_twice (fs fs1 : FSNode) (src dest : FsPath)
    (cs : List (String × FSNode))
    (hsrc : lookupFS fs src = some (.dir cs))
    (hnd : (cs.map Prod.fst).Nodup)
    (hdiv : divergesB src dest = true)
    (h1 : copy_helper fs (some src) dest = (fs1, none)) :
    ((∀ x ∈ cs, ∃ c m, x.2 = FSNode.file c m) →
      ∃ fs2, copy_helper fs1 (some src) dest = (fs2, none) ∧
        ∀ x ∈ cs, lookupFS fs2 (dest ++ [x.1]) = some x.2) ∧
    ((∃ x ∈ cs, ∃ ds, x.2 = FSNode.dir ds) →
      ∃ fs2, copy_helper fs1 (some src) dest = (fs2, some .fileExists)) := by
  obtain ⟨post1, frame1, es1, hes1⟩ :=
    copy_helper_ok fs fs1 src dest cs hsrc hnd hdiv h1
  have hsrc1 : lookupFS fs1 src = some (.dir cs) := by
    rw [frame1 src hdiv]
    exact hsrc
  have hreads1 : ∀ x ∈ cs, lookupFS fs1 (src ++ [x.1]) = some x.2 := by
    intro x hx
    have hd : divergesB (src ++ [x.1]) dest = true := by
      have := divergesB_append src dest [x.1] [] hdiv
      simpa using this
    rw [frame1 (src ++ [x.1]) hd]
    rw [lookupFS_append_child fs src cs x.1 hsrc]
    exact assocFind_of_mem_nodup cs x hx hnd
  have hch2 : ∀ r, copy_helper fs1 (some src) dest = r ↔
      copyEntries fs1 src dest (cs.map Prod.fst) = r := by
    intro r
    unfold copy_helper
    simp only [hsrc1, setup_dir_of_isdir fs1 dest es1 hes1]
  constructor
  · intro hfiles
    obtain ⟨fs2, hok⟩ :=
      copyEntries_ok src dest hdiv cs fs1 hfiles hreads1 ⟨es1, hes1⟩
    obtain ⟨p1, -, -, -⟩ :=
      copyEntries_post src dest hdiv cs fs1 fs2 hreads1 hnd ⟨es1, hes1⟩ hok
    exact ⟨fs2, (hch2 _).mpr hok, p1⟩
  · intro hdirent
    have hexists1 : ∀ x ∈ cs, existsFS fs1 (dest ++ [x.1]) = true := by
      intro x hx
      unfold existsFS
      rw [post1 x hx]
      rfl
    obtain ⟨fs2, herr⟩ :=
      copyEntries_err src dest hdiv cs fs1 hreads1 hnd hexists1 hdirent ⟨es1, hes1⟩
    exact ⟨fs2, (hch2 _).mpr herr⟩

/-- C1: for every template name and valid template type, the resolver
returns the probe path of the first root, in the spec's precedence
order, whose probe path is a directory; no later root is consulted once
one matches (every earlier probe fails the directory test). -/
theorem C1_resolver_first_match (env : Env) (isdirF : FsPath → Bool)
    (tmpl_name tmpl_type : String) (raise_error : Bool) (p : FsPath)
    (hty : tmpl_type = "" ∨ tmpl_type ∈ TEMPLATE_TYPES) :
    search_paths env = specSearchOrder env ∧
    (find_template_dir env isdirF tmpl_name tmpl_type raise_error = .ok (some p) ↔
      ∃ i : Nat, ∃ hi : i < (specProbes env tmpl_name tmpl_type).length,
        p = (specProbes env tmpl_name tmpl_type)[i] ∧ isdirF p = true ∧
        ∀ j : Nat, ∀ hj : j < (specProbes env tmpl_name tmpl_type).length, j < i →
          isdirF (specProbes env tmpl_name tmpl_type)[j] = false) := by
  constructor
  · rfl
  · have hcond : ¬(tmpl_type ≠ "" ∧ tmpl_type ∉ TEMPLATE_TYPES) := by
      rcases hty with h | h
      · simp [h]
      · simp [h]
    have hprobes :
        ((search_paths env).map
          (fun r => probePath r (if tmpl_name = "default" then "" else tmpl_name) tmpl_type)) =
        specProbes env tmpl_name tmpl_type := rfl
    unfold find_template_dir
    rw [if_neg hcond]
    simp only [hprobes]
    rcases hfind : (specProbes env tmpl_name tmpl_type).find? isdirF with _ | q
    · constructor
      · intro h
        exfalso
        rcases raise_error with _ | _ <;> simp at h
      · rintro ⟨i, hi, rfl, hdir, -⟩
        exfalso
        have hmem : (specProbes env tmpl_name tmpl_type)[i] ∈
            specProbes env tmpl_name tmpl_type := List.getElem_mem hi
        have := List.find?_eq_none.mp hfind _ hmem
        simp [hdir] at this
    · constructor
      · intro h
        have hq : q = p := by
          simpa using h
        subst hq
        rcases List.find?_eq_some_iff_getElem.mp hfind with ⟨hdir, i, hi, hget, hprev⟩
        refine ⟨i, hi, hget.symm, hdir, ?_⟩
        intro j hj hj'
        have := hprev j hj'
        simpa using this
      · rintro ⟨i, hi, hp, hdir, hprev⟩
        have hsome : (specProbes env tmpl_name tmpl_type).find? isdirF =
            some ((specProbes env tmpl_name tmpl_type)[i]) := by
          apply List.find?_eq_some_iff_getElem.mpr
          refine ⟨by rw [← hp]; exact hdir, i, hi, rfl, ?_⟩
          intro j hj
          have hjlen : j < (specProbes env tmpl_name tmpl_type).length := Nat.lt_trans hj hi
          simp [hprev j hjlen hj]
        rw [hfind] at hsome
        have : q = (specProbes env tmpl_name tmpl_type)[i] := by
          simpa using hsome
        rw [this, ← hp]

/-- Witness for C1: with only the module directory's probe present, the
user path (earlier in precedence) fails the probe and the resolver
returns the module directory's probe path, at index 1. -/
theorem C1_resolver_first_match_witness :
    ∃ i : Nat, ∃ hi : i < (specProbes envW "default" "app").length,
      (["lib", "couchapp", "templates", "app"] : FsPath) =
        (specProbes envW "default" "app")[i] ∧
      isdirW ["lib", "couchapp", "templates", "app"] = true ∧
      ∀ j : Nat, ∀ hj : j < (specProbes envW "default" "app").length, j < i →
        isdirW ((specProbes envW "default" "app")[j]) = false := by
  have h := (C1_resolver_first_match envW isdirW "default" "app" false
    ["lib", "couchapp", "templates", "app"] (Or.inr (by decide))).2.mp (by decide)
  exact h


/-- Witness for C2 at a concrete state: the first merge-copy of
`srcdir` (one file, one subdirectory) into `destdir` succeeds; because
the source has the top-level subdirectory `sub`, the second identical
call fails with the collision error. -/
theorem C2_merge_copy_twice_witness :
    copy_helper fsW2 (some srcW) destW = (fsW2', none) ∧
    ∃ fs2, copy_helper fsW2' (some srcW) destW = (fs2, some .fileExists) := by
  have h1 : copy_helper fsW2 (some srcW) destW = (fsW2', none) := rfl
  refine ⟨h1, ?_⟩
  exact (C2_merge_copy_twice fsW2 fsW2' srcW destW csW rfl (by decide) (by decide) h1).2
    ⟨("sub", .dir [("b.txt", .file "BBB" 8)]), by simp [csW],
     [("b.txt", .file "BBB" 8)], rfl⟩

/-- C3, evaluated at the failing input: generating view `byDate` into a
fresh app (default functions template providing both `map.js` and
`reduce.js`) raises nothing and creates `views/byDate`, but copies NO
file at all — line 167's `shutil.copy2` is a `NameError` (line 12
imports only `copy2` from `shutil`), swallowed by the bare `except`,
which logs one "not found" warning per skeleton file even though both
exist; the second identical generation does fail with the
ARTIFACT-EXISTS `AppError`, because `os.makedirs` created the
destination directory. -/
theorem C3_view_generation_copies_nothing :
    readFile fsView ["home", ".couchapp", "templates", "functions", "map.js"] =
      some ("// map", 1) ∧
    readFile fsView ["home", ".couchapp", "templates", "functions", "reduce.js"] =
      some ("// reduce", 2) ∧
    (generate envW fsView ["app"] "view" (some "byDate") none).err = none ∧
    listNames fsView1 ["app", "views", "byDate"] = some [] ∧
    readFile fsView1 ["app", "views", "byDate", "map.js"] = none ∧
    readFile fsView1 ["app", "views", "byDate", "reduce.js"] = none ∧
    (generate envW fsView ["app"] "view" (some "byDate") none).warnings =
      ["map.js not found in home/.couchapp/templates/functions",
       "reduce.js not found in home/.couchapp/templates/functions"] ∧
    (generate envW fsView1 ["app"] "view" (some "byDate") none).err =
      some (.appError "The view byDate already exists") := by
  decide

/-- C4, evaluated at the failing input: `generate` dispatches the
`vendor` kind to `generate_vendor`, a name defined nowhere in the
module, so the call raises `NameError` before any directory is created
or copied. -/
theorem C4_generate_vendor_name_error :
    generate envW fsView ["app"] "vendor" (some "jquery") (some "vendorsrc") =
      ⟨fsView, [], some .nameError⟩ := by
  rfl

/-- C5, evaluated at the failing input: the `vendor` branch of
`generate_function` (reachable by calling it directly) executes
`copy_helper(path, targetpath)` with the app directory as SOURCE and
the template argument's directory as DESTINATION, so the app's file
`x.txt` appears inside the template source `vendorsrc` — a template-set
input is mutated — while the supposed destination
`vendor/jquery` stays empty. -/
theorem C5_vendor_branch_mutates_template :
    readFile fsVend ["vendorsrc", "x.txt"] = none ∧
    (generate_function envW fsVend ["app"] "vendor" "jquery" (some "vendorsrc")).err =
      none ∧
    readFile (generate_function envW fsVend ["app"] "vendor" "jquery"
      (some "vendorsrc")).fs ["vendorsrc", "x.txt"] = some ("XX", 3) ∧
    listNames (generate_function envW fsVend ["app"] "vendor" "jquery"
      (some "vendorsrc")).fs ["app", "vendor", "jquery"] = some [] := by
  decide

/-- C6, evaluated at the failing input: with `reduce.js` missing from
the functions template, the view generation indeed does not fail and
logs a warning naming `reduce.js` and its expected location — but the
present `map.js` is not copied either (the swallowed `NameError` of
line 167 logs the same warning for it), so no file is produced at the
destination. -/
theorem C6_missing_skeleton_copies_nothing :
    readFile fsC6 ["home", ".couchapp", "templates", "functions", "map.js"] =
      some ("// map", 1) ∧
    readFile fsC6 ["home", ".couchapp", "templates", "functions", "reduce.js"] =
      none ∧
    (generate envW fsC6 ["app"] "view" (some "byDate") none).err = none ∧
    (generate envW fsC6 ["app"] "view" (some "byDate") none).warnings =
      ["map.js not found in home/.couchapp/templates/functions",
       "reduce.js not found in home/.couchapp/templates/functions"] ∧
    readFile (generate envW fsC6 ["app"] "view" (some "byDate") none).fs
      ["app", "views", "byDate", "map.js"] = none := by
  decide

/-- C7, evaluated at the failing input: generating kind `function`
named `validate` produces NO file: the branch keeps the app directory
itself as the destination (it would write `validate.js` at the app
root, not under `functions/`), and even that copy is a no-op because of
line 167's swallowed `NameError`; only a warning is logged. -/
theorem C7_function_kind_produces_nothing :
    readFile fsC7 ["home", ".couchapp", "templates", "functions", "validate.js"] =
      some ("// v", 1) ∧
    (generate envW fsC7 ["app"] "function" (some "validate") none).err = none ∧
    readFile (generate envW fsC7 ["app"] "function" (some "validate") none).fs
      ["app", "functions", "validate.js"] = none ∧
    readFile (generate envW fsC7 ["app"] "function" (some "validate") none).fs
      ["app", "validate.js"] = none ∧
    (generate envW fsC7 ["app"] "function" (some "validate") none).warnings =
      ["validate.js not found in home/.couchapp/templates/functions"] := by
  decide

/-- Counterexample to C8: the empty string is not `None`, so
`generate` with `name = ""` passes both validation checks and proceeds
into generation (here finishing without any error at all), instead of
failing with the missing-name configuration error. -/
theorem C8_empty_name_not_rejected :
    (generate envW fsView ["app"] "show" (some "") none).err = none := by
  decide

/-- C8 as amended: an unknown kind fails with the unknown-kind
`AppError` before anything else, and a missing (`None`) name fails with
the missing-name `AppError` before any generation is attempted; an
empty string name, however, passes validation. -/
theorem C8_generate_validation (env : Env) (fs : FSNode) (path : FsPath)
    (kind : String) (name : Option String) (template : Option String) :
    (kind ∉ ["view", "list", "show", "filter", "function", "vendor",
             "update", "spatial"] →
      generate env fs path kind name template =
        ⟨fs, [], some (.appError ("Can't generate '" ++ kind ++
          "' in your couchapp. generator is unknown."))⟩) ∧
    (kind ∈ ["view", "list", "show", "filter", "function", "vendor",
             "update", "spatial"] → name = none →
      generate env fs path kind name template =
        ⟨fs, [], some (.appError ("Can't generate '" ++ kind ++
          "' function, name is missing"))⟩) := by
  constructor
  · intro h
    unfold generate
    rw [if_pos h]
  · intro h hn
    subst hn
    unfold generate
    rw [if_neg (not_not_intro h)]

/-- Witness for the amended C8: an unknown kind and a `None` name each
produce their configuration error at a concrete input. -/
theorem C8_generate_validation_witness :
    generate envW fsView ["app"] "bogus" (some "x") none =
      ⟨fsView, [], some (.appError ("Can't generate '" ++ "bogus" ++
        "' in your couchapp. generator is unknown."))⟩ ∧
    generate envW fsView ["app"] "view" none none =
      ⟨fsView, [], some (.appError ("Can't generate '" ++ "view" ++
        "' function, name is missing"))⟩ := by
  constructor
  · exact (C8_generate_validation envW fsView ["app"] "bogus" (some "x") none).1
      (by decide)
  · exact (C8_generate_validation envW fsView ["app"] "view" none none).2
      (by decide) rfl

theorem setup_dir_empty_ok (fs fs' : FSNode) (p : FsPath)
    (h : setup_dir fs p true = (fs', none)) :
    lookupFS fs' p = some (.dir []) := by
  unfold setup_dir at h
  rcases hl : lookupFS fs p with _ | c
  · simp only [hl] at h
    rcases he : ensureDirs fs p with _ | fs2
    · simp only [he] at h
      simp at h
    · simp only [he, Prod.mk.injEq] at h
      obtain ⟨rfl, -⟩ := h
      exact lookupFS_ensureDirs_fresh fs fs2 p he hl
  · cases c with
    | file c m =>
      simp only [hl] at h
      simp at h
    | dir cs =>
      simp only [hl, true_and] at h
      by_cases hre : cs.isEmpty = false
      · rw [if_pos hre] at h
        simp at h
      · rw [if_neg hre] at h
        simp only [Prod.mk.injEq] at h
        obtain ⟨rfl, -⟩ := h
        have hcs : cs = [] := by
          rcases cs with _ | ⟨a, t⟩
          · rfl
          · exact absurd rfl hre
        rw [hcs] at hl
        exact hl

theorem setup_dir_child_step (fs : FSNode) (path : FsPath)
    (cs : List (String × FSNode)) (k : String) (re : Bool)
    (hl : lookupFS fs path = some (.dir cs)) (habs : assocFind cs k = none) :
    ∃ fs', setup_dir fs (path ++ [k]) re = (fs', none) ∧
      lookupFS fs' path = some (.dir (cs ++ [(k, .dir [])])) ∧
      lookupFS fs' (path ++ [k]) = some (.dir []) := by
  obtain ⟨n', he, hl1, hl2⟩ := ensureDirs_append_child fs path cs k hl habs
  refine ⟨n', ?_, hl1, hl2⟩
  have hchild : lookupFS fs (path ++ [k]) = none := by
    rw [lookupFS_append_child fs path cs k hl]
    exact habs
  unfold setup_dir
  simp only [hchild, he]

/-- C9: after a successful `init_basic(P)`, listing `P` yields exactly
the six STANDARD TREE subdirectories followed by the `_id` file, each
of the six is a directory, and the `_id` file's content is
`_design/<basename(P)>` (the final path component). -/
theorem C9_init_basic_roundtrip (fs fs' : FSNode) (path : FsPath)
    (h : init_basic fs path = (fs', none)) :
    listNames fs' path =
      some ["_attachments", "filters", "lists", "shows", "updates", "views", "_id"] ∧
    (∀ nm ∈ DEFAULT_APP_TREE, isdirFS fs' (path ++ [nm]) = true) ∧
    readFile fs' (path ++ ["_id"]) =
      some ("_design/" ++ (path.getLast?.getD ""), 0) := by
  unfold init_basic at h
  rcases hs0 : setup_dir fs path true with ⟨fs1, e0⟩
  rcases e0 with _ | e0
  · simp only [hs0] at h
    have hl1 : lookupFS fs1 path = some (.dir []) := setup_dir_empty_ok fs fs1 path hs0
    simp only [DEFAULT_APP_TREE, List.map_cons, List.map_nil] at h
    obtain ⟨fsA, hsA, hlA, -⟩ :=
      setup_dir_child_step fs1 path [] "_attachments" true hl1 rfl
    obtain ⟨fsB, hsB, hlB, -⟩ :=
      setup_dir_child_step fsA path [("_attachments", .dir [])] "filters" true hlA rfl
    obtain ⟨fsC, hsC, hlC, -⟩ :=
      setup_dir_child_step fsB path
        [("_attachments", .dir []), ("filters", .dir [])] "lists" true hlB rfl
    obtain ⟨fsD, hsD, hlD, -⟩ :=
      setup_dir_child_step fsC path
        [("_attachments", .dir []), ("filters", .dir []), ("lists", .dir [])]
        "shows" true hlC rfl
    obtain ⟨fsE, hsE, hlE, -⟩ :=
      setup_dir_child_step fsD path
        [("_attachments", .dir []), ("filters", .dir []), ("lists", .dir []),
         ("shows", .dir [])] "updates" true hlD rfl
    obtain ⟨fsF, hsF, hlF, -⟩ :=
      setup_dir_child_step fsE path
        [("_attachments", .dir []), ("filters", .dir []), ("lists", .dir []),
         ("shows", .dir []), ("updates", .dir [])] "views" true hlE rfl
    simp only [setup_dirs, hsA, hsB, hsC, hsD, hsE, hsF] at h
    obtain ⟨fsG, hupd, hlG, hidG⟩ :=
      updateFS_append_child fsF path
        [("_attachments", .dir []), ("filters", .dir []), ("lists", .dir []),
         ("shows", .dir []), ("updates", .dir []), ("views", .dir [])]
        "_id" (.file ("_design/" ++ (path.getLast?.getD "")) 0) hlF
    simp only [save_id, hupd, localdoc_document, Prod.mk.injEq] at h
    obtain ⟨rfl, -⟩ := h
    refine ⟨?_, ?_, ?_⟩
    · simp only [listNames, hlG]
      rfl
    · intro nm hnm
      unfold isdirFS
      rw [lookupFS_append_child fsG path _ nm hlG]
      fin_cases hnm <;> rfl
    · simp only [readFile, hidG]
  · simp only [hs0] at h
    simp at h

/-- Witness for C9: `init_basic` on an empty filesystem at `myapp`. -/
theorem C9_init_basic_roundtrip_witness :
    listNames (init_basic (.dir []) ["myapp"]).1 ["myapp"] =
      some ["_attachments", "filters", "lists", "shows", "updates", "views", "_id"] ∧
    (∀ nm ∈ DEFAULT_APP_TREE,
      isdirFS (init_basic (.dir []) ["myapp"]).1 (["myapp"] ++ [nm]) = true) ∧
    readFile (init_basic (.dir []) ["myapp"]).1 (["myapp"] ++ ["_id"]) =
      some ("_design/" ++ ((["myapp"] : FsPath).getLast?.getD ""), 0) :=
  C9_init_basic_roundtrip (.dir []) (init_basic (.dir []) ["myapp"]).1 ["myapp"] rfl

/-- C10: when neither the requested template set nor the default set
provides `vendor`, `init_template` does not fail with the
template-not-found `AppError`: both vendor lookups are made with
`raise_error = false` and return `None`, `copy_helper` then receives
the `None` source after the `app` payload has already been merge-copied
and the standard tree ensured, and the surfaced failure is the
`TypeError` that `os.path.isdir(None)` raises inside `copy_helper`,
leaving the partially initialised app tree (the state `fs2`, whose
standard subdirectories all exist) in place — no `_id` marker is
written. -/
theorem C10_init_template_vendor_none (env : Env) (fs fs1 fs2 : FSNode)
    (path : FsPath) (template : String) (src : FsPath)
    (h0 : ¬ template ∈ TEMPLATE_TYPES)
    (h1 : find_template_dir env (isdirFS fs)
            (if template ≠ "" then normpathStr template else "") "app" true =
          .ok (some src))
    (h2 : copy_helper fs (some src) path = (fs1, none))
    (h3 : setup_dirs fs1 (DEFAULT_APP_TREE.map (fun n => path ++ [n])) false =
          (fs2, none))
    (h4 : find_template_dir env (isdirFS fs2)
            (if template ≠ "" then normpathStr template else "") "vendor" false =
          .ok none)
    (h5 : find_template_dir env (isdirFS fs2) "default" "vendor" false = .ok none) :
    init_template env fs path template = (fs2, some .typeError) ∧
    ∀ nm ∈ DEFAULT_APP_TREE, isdirFS fs2 (path ++ [nm]) = true := by
  constructor
  · unfold init_template
    rw [if_neg h0]
    simp only [h1, h2, h3, h4, h5]
    rfl
  · intro nm hnm
    exact setup_dirs_post (DEFAULT_APP_TREE.map (fun n => path ++ [n]))
      fs1 fs2 false h3 (path ++ [nm]) (List.mem_map_of_mem _ hnm)

/-- Witness for C10: template set `mytmpl` has an `app` payload but no
`vendor`, and the default set has no `vendor` either. -/
theorem C10_init_template_vendor_none_witness :
    init_template envW fsC10 ["theapp"] "mytmpl" = (fsC10b, some .typeError) ∧
    ∀ nm ∈ DEFAULT_APP_TREE, isdirFS fsC10b (["theapp"] ++ [nm]) = true := by
  exact C10_init_template_vendor_none envW fsC10 fsC10a fsC10b ["theapp"] "mytmpl"
    srcC10 (by decide) (by decide) rfl rfl (by decide) (by decide)
